import Mathlib

set_option maxRecDepth 10000

/-!
Shallow embedding of `scripts/fix-duplicate-methods.py`.

The script reads `src/services.tsx` into `content`, searches for the literal
text `private async getPrioritizedPages(` (the regex in the script is this
literal with an escaped parenthesis), then searches for the literal anchor
`"\n    private async optimizeDOMSurgically("` inside `content[start_pos:]`.
If either search fails it prints an error and exits with status 1 without
writing.  Otherwise it writes
`content[:start_pos] + CLEAN_METHOD + content[end_pos:]` back to the file and
prints the number of (non-overlapping) occurrences of
`private async getPrioritizedPages` inside the excised slice
`content[start_pos:end_pos]`.

Documents are embedded as `List Char`; the whole observable behaviour of one
run (which text is written back, the console lines, the exit status) is a
function `runFix` of the input document.
-/

def CLEAN_METHOD : String :=
  "    private async getPrioritizedPages(context: GenerationContext): Promise<SitemapPage[]> \x7b\n        const now = Date.now();\n        const userTargets = this.getUserTargetUrls();\n        const targetSet = new Set(userTargets.map(u => this.normalizeUrl(u)));\n\n        const isTargetPage = (p: SitemapPage): boolean => targetSet.has(this.normalizeUrl(p.id));\n\n        let candidates = [...context.existingPages];\n\n        // CRITICAL FIX: NO COOLDOWN FOR USER TARGETS\n        candidates = candidates.filter(p => \x7b\n            if (isTargetPage(p)) return true; // User targets ALWAYS run\n            \n            const lastProcessed = localStorage.getItem(\x60sota_last_proc_$\x7bp.id\x7d\x60);\n            if (!lastProcessed) return true;\n            const hoursSince = (now - parseInt(lastProcessed)) / (1000 * 60 * 60);\n            return hoursSince > 24;\n        \x7d);\n\n        const prioritized: SitemapPage[] = [];\n        const used = new Set<string>();\n\n        if (userTargets.length > 0) \x7b\n            const byNorm = new Map(candidates.map(p => [this.normalizeUrl(p.id), p] as const));\n\n            for (const url of userTargets) \x7b\n                const norm = this.normalizeUrl(url);\n                const page = byNorm.get(norm) || \x7b\n                    id: url,\n                    title: url,\n                    slug: extractSlugFromUrl(url),\n                    lastMod: null,\n                    wordCount: null,\n                    crawledContent: null,\n                    healthScore: null,\n                    updatePriority: \x27Critical\x27,\n                    justification: \x27User-selected target URL (URL Targeting Engine).\x27,\n                    daysOld: 999,\n                    isStale: true,\n                    publishedState: \x27none\x27,\n                    status: \x27idle\x27,\n                    analysis: null\n                \x7d;\n\n                if (!used.has(norm)) \x7b\n                    used.add(norm);\n                    prioritized.push(page as SitemapPage);\n                \x7d\n            \x7d\n        \x7d\n\n        const rest = candidates\n            .filter(p => !used.has(this.normalizeUrl(p.id)))\n            .sort((a, b) => (b.daysOld || 0) - (a.daysOld || 0));\n\n        this.logCallback(\x60🎯 Targets loaded: $\x7buserTargets.length\x7d. Queue size: $\x7bprioritized.length + rest.length\x7d\x60);\n        return [...prioritized, ...rest];\n    \x7d\n"

/-- The literal text of the Python regex `private async getPrioritizedPages\(`
(a literal string once the escaped parenthesis is unescaped). -/
def PATTERN : String := "private async getPrioritizedPages("

/-- The literal text of the Python regex
`\n    private async optimizeDOMSurgically\(`. -/
def ANCHOR : String := "\n    private async optimizeDOMSurgically("

/-- The argument of `str.count` on line 98 of the script (note: no trailing
parenthesis). -/
def COUNT_PATTERN : String := "private async getPrioritizedPages"

/-- `occursAt pat s i` says that the string `pat` occurs in `s` starting at
(0-based) position `i`. -/
def occursAt (pat s : List Char) (i : Nat) : Prop := pat <+: s.drop i

instance (pat s : List Char) (i : Nat) : Decidable (occursAt pat s i) :=
  inferInstanceAs (Decidable (pat <+: s.drop i))

/-- Leftmost-match search, the embedding of `re.search` for a pattern that is
a literal string: `strFindAux pat i s` returns `i + j` where `j` is the least
position of an occurrence of `pat` in `s`, and `none` if there is none.  The
accumulator form keeps kernel evaluation tail recursive. -/
def strFindAux (pat : List Char) (i : Nat) : List Char → Option Nat
  | [] => if pat.isPrefixOf [] then some i else none
  | c :: rest => if pat.isPrefixOf (c :: rest) then some i else strFindAux pat (i + 1) rest

/-- The match start of `re.search(pat, s)` for a literal pattern `pat`. -/
def strFind (pat s : List Char) : Option Nat := strFindAux pat 0 s

/-- The number of positions at which `pat` occurs in `s` (all positions,
including overlapping ones).  This is the specification-side counting
function used to state "exactly one occurrence". -/
def countOcc (pat : List Char) : List Char → Nat
  | [] => 0
  | c :: rest => (if pat.isPrefixOf (c :: rest) then 1 else 0) + countOcc pat rest

/-- Tail-recursive accumulator form of `countOcc`, used so that concrete
counts over the long `CLEAN_METHOD` text evaluate in constant stack. -/
def scanCount (pat : List Char) (acc : Nat) : List Char → Nat
  | [] => acc
  | c :: rest =>
    if pat.isPrefixOf (c :: rest) then scanCount pat (acc + 1) rest
    else scanCount pat acc rest

/-- The embedding of Python `str.count`: left-to-right scan counting
non-overlapping occurrences; after a match at a position the next
`pat.length - 1` positions are skipped (`skip` counts how many positions are
still to be skipped).  For the non-empty patterns the script uses, this is
exactly `s.count(pat)`. -/
def pyCountAux (pat : List Char) : Nat → Nat → List Char → Nat
  | _, acc, [] => acc
  | 0, acc, c :: rest =>
    if pat.isPrefixOf (c :: rest) then pyCountAux pat (pat.length - 1) (acc + 1) rest
    else pyCountAux pat 0 acc rest
  | skip + 1, acc, _ :: rest => pyCountAux pat skip acc rest

/-- Python `content.count(pat)`. -/
def pyCount (pat s : List Char) : Nat := pyCountAux pat 0 0 s

/-- The observable outcome of one run of the script: which error path was
taken (each prints its message and calls `exit(1)` before any write), or the
text written back to `src/services.tsx` together with the count interpolated
into the success message. -/
inductive RunOutcome where
  | errNoPattern : RunOutcome
  | errNoAnchor : RunOutcome
  | fixed : List Char → Nat → RunOutcome
deriving DecidableEq

/-- The script, lines 74-99: locate the first `private async
getPrioritizedPages(`, locate the first `\n    private async
optimizeDOMSurgically(` at or after it, and replace everything in between by
`CLEAN_METHOD`; report `content[start_pos:end_pos].count(COUNT_PATTERN)`. -/
def runFix (content : List Char) : RunOutcome :=
  match strFind PATTERN.data content with
  | none => .errNoPattern
  | some start_pos =>
    match strFind ANCHOR.data (content.drop start_pos) with
    | none => .errNoAnchor
    | some rel =>
      let end_pos := start_pos + rel
      .fixed (content.take start_pos ++ CLEAN_METHOD.data ++ content.drop end_pos)
        (pyCount COUNT_PATTERN.data ((content.drop start_pos).take rel))

/-- Whether the run rewrites `src/services.tsx` (the script writes exactly
when both searches succeed). -/
def writesFile : RunOutcome → Bool
  | .fixed _ _ => true
  | _ => false

/-- The process exit status of the run (`exit(1)` on either failure path,
normal termination otherwise). -/
def exitCode : RunOutcome → Nat
  | .errNoPattern => 1
  | .errNoAnchor => 1
  | .fixed _ _ => 0

/-- The lines the script prints, in order. -/
def consoleOutput : RunOutcome → List String
  | .errNoPattern => ["\u274c Could not find getPrioritizedPages method!"]
  | .errNoAnchor => ["\u274c Could not find optimizeDOMSurgically method!"]
  | .fixed _ n =>
    ["\u2705 FIXED! Nuked " ++ toString n ++ " duplicate methods",
     "\u2705 Inserted 1 clean method with NO cooldown for user targets"]

/-! ## Generic facts about `occursAt`, `strFind`, `countOcc`, `pyCount` -/

theorem occursAt_zero_iff {pat s : List Char} : occursAt pat s 0 ↔ pat <+: s := by
  simp [occursAt]

theorem occursAt_cons_succ {pat : List Char} {c : Char} {rest : List Char} {i : Nat} :
    occursAt pat (c :: rest) (i + 1) ↔ occursAt pat rest i := Iff.rfl

theorem occursAt_drop {pat s : List Char} {n i : Nat} :
    occursAt pat (s.drop n) i ↔ occursAt pat s (n + i) := by
  simp [occursAt, List.drop_drop]

theorem occursAt_length {pat s : List Char} {i : Nat} (hp : pat ≠ [])
    (h : occursAt pat s i) : i + pat.length ≤ s.length := by
  have h1 := h.length_le
  have h2 : 0 < pat.length := List.length_pos.mpr hp
  simp only [List.length_drop] at h1
  omega

theorem countOcc_cons (pat : List Char) (c : Char) (rest : List Char) :
    countOcc pat (c :: rest) = (if pat <+: (c :: rest) then 1 else 0) + countOcc pat rest := by
  by_cases h : pat <+: (c :: rest) <;>
    simp [countOcc, h, List.isPrefixOf_iff_prefix]

theorem countOcc_eq_zero_iff {pat s : List Char} (hp : pat ≠ []) :
    countOcc pat s = 0 ↔ ∀ i, ¬ occursAt pat s i := by
  induction s with
  | nil =>
    simp only [countOcc, occursAt, List.drop_nil, true_iff]
    intro i h
    exact hp (List.prefix_nil.mp h)
  | cons c rest ih =>
    rw [countOcc_cons]
    constructor
    · intro h i
      have h0 : ¬ pat <+: (c :: rest) := by
        intro hh
        rw [if_pos hh] at h
        omega
      have h1 : countOcc pat rest = 0 := by
        rw [if_neg h0] at h
        omega
      cases i with
      | zero => exact fun hc => h0 (occursAt_zero_iff.mp hc)
      | succ m => exact fun hc => (ih.mp h1) m (occursAt_cons_succ.mp hc)
    · intro h
      rw [if_neg (fun hh => h 0 (occursAt_zero_iff.mpr hh)), Nat.zero_add]
      exact ih.mpr fun m hm => h (m + 1) (occursAt_cons_succ.mpr hm)

theorem one_le_countOcc {pat s : List Char} {i : Nat} (hp : pat ≠ [])
    (h : occursAt pat s i) : 1 ≤ countOcc pat s := by
  induction s generalizing i with
  | nil =>
    exact absurd (List.prefix_nil.mp (by simpa [occursAt] using h)) hp
  | cons c rest ih =>
    rw [countOcc_cons]
    cases i with
    | zero => rw [if_pos (occursAt_zero_iff.mp h)]; omega
    | succ m => have := ih (occursAt_cons_succ.mp h); omega

theorem two_le_countOcc {pat s : List Char} {i j : Nat} (hp : pat ≠ [])
    (hi : occursAt pat s i) (hj : occursAt pat s j) (hij : i < j) :
    2 ≤ countOcc pat s := by
  induction s generalizing i j with
  | nil =>
    exact absurd (List.prefix_nil.mp (by simpa [occursAt] using hi)) hp
  | cons c rest ih =>
    rw [countOcc_cons]
    cases i with
    | zero =>
      obtain ⟨m, rfl⟩ : ∃ m, j = m + 1 := ⟨j - 1, by omega⟩
      rw [if_pos (occursAt_zero_iff.mp hi)]
      have := one_le_countOcc hp (occursAt_cons_succ.mp hj)
      omega
    | succ m =>
      obtain ⟨m', rfl⟩ : ∃ m', j = m' + 1 := ⟨j - 1, by omega⟩
      have := ih (occursAt_cons_succ.mp hi) (occursAt_cons_succ.mp hj) (by omega)
      omega

theorem countOcc_eq_one_of_unique {pat s : List Char} {p : Nat}
    (h : occursAt pat s p) (hu : ∀ q, occursAt pat s q → q = p) :
    countOcc pat s = 1 := by
  by_cases hp : pat = []
  · subst hp
    have h1 : occursAt [] s (p + 1) := by simp [occursAt]
    exact absurd (hu _ h1) (by omega)
  · induction s generalizing p with
    | nil => exact absurd (List.prefix_nil.mp (by simpa [occursAt] using h)) hp
    | cons c rest ih =>
      rw [countOcc_cons]
      cases p with
      | zero =>
        rw [if_pos (occursAt_zero_iff.mp h)]
        have h0 : countOcc pat rest = 0 := by
          rw [countOcc_eq_zero_iff hp]
          intro m hm
          exact Nat.succ_ne_zero m (hu (m + 1) (occursAt_cons_succ.mpr hm))
        omega
      | succ q =>
        rw [if_neg (fun hh => Nat.succ_ne_zero q ((hu 0 (occursAt_zero_iff.mpr hh)).symm))]
        rw [Nat.zero_add]
        exact ih (occursAt_cons_succ.mp h)
          (fun m hm => Nat.succ_injective (hu (m + 1) (occursAt_cons_succ.mpr hm)))

theorem eq_of_countOcc_eq_one {pat s : List Char} {i j : Nat} (hp : pat ≠ [])
    (h1 : countOcc pat s = 1) (hi : occursAt pat s i) (hj : occursAt pat s j) : i = j := by
  rcases Nat.lt_trichotomy i j with h | h | h
  · have := two_le_countOcc hp hi hj h; omega
  · exact h
  · have := two_le_countOcc hp hj hi h; omega

theorem countOcc_drop_of_not_occ {pat s : List Char} :
    ∀ n : Nat, (∀ j, j < n → ¬ occursAt pat s j) →
      countOcc pat s = countOcc pat (s.drop n) := by
  intro n
  induction n generalizing s with
  | zero => simp
  | succ m ih =>
    intro h
    cases s with
    | nil => simp
    | cons c rest =>
      have h0 : ¬ pat <+: (c :: rest) := fun hh => h 0 (by omega) (occursAt_zero_iff.mpr hh)
      rw [countOcc_cons, if_neg h0, Nat.zero_add, List.drop_succ_cons]
      exact ih (fun j hj hc => h (j + 1) (by omega) (occursAt_cons_succ.mpr hc))

theorem scanCount_eq (pat : List Char) :
    ∀ (s : List Char) (acc : Nat), scanCount pat acc s = acc + countOcc pat s := by
  intro s
  induction s with
  | nil => intro acc; simp [scanCount, countOcc]
  | cons c rest ih =>
    intro acc
    by_cases h : pat <+: (c :: rest)
    · rw [scanCount, if_pos (List.isPrefixOf_iff_prefix.mpr h), ih, countOcc_cons, if_pos h]
      omega
    · rw [scanCount, if_neg (fun hh => h (List.isPrefixOf_iff_prefix.mp hh)), ih,
        countOcc_cons, if_neg h]
      omega

theorem strFindAux_shift (pat : List Char) :
    ∀ (s : List Char) (i : Nat),
      strFindAux pat i s = (strFindAux pat 0 s).map (fun j => j + i) := by
  intro s
  induction s with
  | nil => intro i; by_cases h : pat.isPrefixOf [] <;> simp [strFindAux, h]
  | cons c rest ih =>
    intro i
    by_cases h : pat.isPrefixOf (c :: rest)
    · simp [strFindAux, h]
    · simp only [strFindAux, if_neg h]
      rw [ih (i + 1), ih 1]
      cases strFindAux pat 0 rest <;> simp <;> omega

theorem strFind_cons {pat : List Char} {c : Char} {rest : List Char} :
    strFind pat (c :: rest) =
      if pat <+: (c :: rest) then some 0 else (strFind pat rest).map (fun j => j + 1) := by
  by_cases h : pat <+: (c :: rest)
  · rw [if_pos h]
    simp [strFind, strFindAux, List.isPrefixOf_iff_prefix.mpr h]
  · rw [if_neg h]
    have hb : pat.isPrefixOf (c :: rest) = false := by
      rw [Bool.eq_false_iff]
      exact fun hh => h (List.isPrefixOf_iff_prefix.mp hh)
    simp [strFind, strFindAux, hb, strFindAux_shift pat rest 1]

theorem strFind_none_iff {pat s : List Char} :
    strFind pat s = none ↔ ∀ m, ¬ occursAt pat s m := by
  induction s with
  | nil =>
    constructor
    · intro h m hc
      have hc' : pat = [] := List.prefix_nil.mp (by simpa [occursAt] using hc)
      subst hc'
      simp [strFind, strFindAux, List.isPrefixOf] at h
    · intro h
      unfold strFind strFindAux
      rw [if_neg]
      intro hh
      exact h 0 (occursAt_zero_iff.mpr (List.isPrefixOf_iff_prefix.mp hh))
  | cons c rest ih =>
    rw [strFind_cons]
    by_cases h : pat <+: (c :: rest)
    · rw [if_pos h]
      simp only [reduceCtorEq, false_iff]
      intro hforall
      exact hforall 0 (occursAt_zero_iff.mpr h)
    · rw [if_neg h]
      constructor
      · intro hm m
        have hrest := ih.mp (by cases hr : strFind pat rest <;> simp [hr] at hm ⊢)
        cases m with
        | zero => exact fun hc => h (occursAt_zero_iff.mp hc)
        | succ k => exact fun hc => hrest k (occursAt_cons_succ.mp hc)
      · intro hall
        have : strFind pat rest = none :=
          ih.mpr (fun m hm => hall (m + 1) (occursAt_cons_succ.mpr hm))
        simp [this]

theorem strFind_some_iff {pat s : List Char} {j : Nat} :
    strFind pat s = some j ↔ occursAt pat s j ∧ ∀ m, m < j → ¬ occursAt pat s m := by
  induction s generalizing j with
  | nil =>
    constructor
    · intro h
      have hEmpty : pat = [] := by
        by_contra hne
        unfold strFind strFindAux at h
        rw [if_neg (fun hh => hne (List.prefix_nil.mp (List.isPrefixOf_iff_prefix.mp hh)))] at h
        exact Option.noConfusion h
      subst hEmpty
      have hj : j = 0 := by
        unfold strFind strFindAux at h
        simp [List.isPrefixOf] at h
        omega
      subst hj
      exact ⟨by simp [occursAt], fun m hm => absurd hm (by omega)⟩
    · rintro ⟨hocc, hmin⟩
      have hEmpty : pat = [] := List.prefix_nil.mp (by simpa [occursAt] using hocc)
      subst hEmpty
      have hj : j = 0 := by
        by_contra hne
        exact hmin 0 (by omega) (by simp [occursAt])
      subst hj
      simp [strFind, strFindAux, List.isPrefixOf]
  | cons c rest ih =>
    rw [strFind_cons]
    by_cases h : pat <+: (c :: rest)
    · rw [if_pos h]
      constructor
      · intro hj
        have hj0 : j = 0 := by simpa using (Option.some.inj hj).symm
        subst hj0
        exact ⟨occursAt_zero_iff.mpr h, fun m hm => absurd hm (by omega)⟩
      · rintro ⟨hocc, hmin⟩
        have hj0 : j = 0 := by
          by_contra hne
          exact hmin 0 (by omega) (occursAt_zero_iff.mpr h)
        subst hj0
        rfl
    · rw [if_neg h]
      constructor
      · intro hj
        obtain ⟨k, hk, rfl⟩ : ∃ k, strFind pat rest = some k ∧ j = k + 1 := by
          cases hr : strFind pat rest <;> simp [hr] at hj ⊢
          omega
        obtain ⟨hocc, hmin⟩ := ih.mp hk
        refine ⟨occursAt_cons_succ.mpr hocc, fun m hm => ?_⟩
        cases m with
        | zero => exact fun hc => h (occursAt_zero_iff.mp hc)
        | succ m' => exact fun hc => hmin m' (by omega) (occursAt_cons_succ.mp hc)
      · rintro ⟨hocc, hmin⟩
        obtain ⟨k, rfl⟩ : ∃ k, j = k + 1 := by
          cases j with
          | zero => exact absurd (occursAt_zero_iff.mp hocc) h
          | succ k => exact ⟨k, rfl⟩
        have : strFind pat rest = some k :=
          ih.mpr ⟨occursAt_cons_succ.mp hocc,
            fun m hm hc => hmin (m + 1) (by omega) (occursAt_cons_succ.mpr hc)⟩
        simp [this]

theorem strFind_some_of_occursAt {pat s : List Char} {i : Nat} (h : occursAt pat s i) :
    ∃ j, j ≤ i ∧ strFind pat s = some j := by
  cases hf : strFind pat s with
  | none => exact absurd h (strFind_none_iff.mp hf i)
  | some j =>
    obtain ⟨hocc, hmin⟩ := strFind_some_iff.mp hf
    refine ⟨j, ?_, rfl⟩
    by_contra hlt
    exact hmin i (by omega) h

theorem prefix_append_iff_left {x u v : List Char} (h : x.length ≤ u.length) :
    x <+: u ++ v ↔ x <+: u := by
  constructor
  · intro hx
    have hx' : x = (u ++ v).take x.length := List.prefix_iff_eq_take.mp hx
    rw [List.take_append_of_le_length h] at hx'
    exact hx' ▸ ⟨u.drop x.length, List.take_append_drop _ _⟩
  · intro hx
    exact hx.trans (List.prefix_append u v)

theorem prefix_split {x u w : List Char} (hx : x <+: u ++ w) (h : u.length ≤ x.length) :
    u = x.take u.length ∧ x.drop u.length <+: w := by
  obtain ⟨t, ht⟩ := hx
  constructor
  · have h2 := congrArg (List.take u.length) ht
    rw [List.take_append_of_le_length h, List.take_left] at h2
    exact h2.symm
  · have h3 := congrArg (List.drop u.length) ht
    rw [List.drop_append_of_le_length h, List.drop_left] at h3
    exact ⟨t, h3⟩

theorem occursAt_append_right {pat a b : List Char} {i : Nat} :
    occursAt pat (a ++ b) (a.length + i) ↔ occursAt pat b i := by
  simp [occursAt, List.drop_append]

theorem occursAt_append_left {pat a b : List Char} {i : Nat}
    (h : i + pat.length ≤ a.length) : occursAt pat (a ++ b) i ↔ occursAt pat a i := by
  unfold occursAt
  rw [List.drop_append_of_le_length (by omega)]
  exact prefix_append_iff_left (by simp [List.length_drop]; omega)

theorem occursAt_into_left_append {pat a b : List Char} {i : Nat}
    (h : occursAt pat a i) : occursAt pat (a ++ b) i := by
  by_cases hp : pat = []
  · subst hp
    simp [occursAt]
  · unfold occursAt at h ⊢
    have hle : i ≤ a.length := by
      by_contra hgt
      rw [List.drop_eq_nil_iff.mpr (by omega)] at h
      exact hp (List.prefix_nil.mp h)
    rw [List.drop_append_of_le_length hle]
    exact h.trans (List.prefix_append _ _)

theorem occursAt_trans {q p s : List Char} {i k : Nat}
    (hq : occursAt q p k) (hk : k ≤ p.length) (hp : occursAt p s i) :
    occursAt q s (i + k) := by
  obtain ⟨t, ht⟩ := hp
  unfold occursAt
  rw [← List.drop_drop, ← ht, List.drop_append_of_le_length hk]
  exact hq.trans (List.prefix_append _ _)

theorem occursAt_straddle {pat a b : List Char} {i : Nat}
    (h : occursAt pat (a ++ b) i) (h1 : i ≤ a.length) (h2 : a.length < i + pat.length) :
    a.drop i = pat.take (a.length - i) ∧ occursAt (pat.drop (a.length - i)) b 0 := by
  unfold occursAt at h
  rw [List.drop_append_of_le_length h1] at h
  have hlen : (a.drop i).length ≤ pat.length := by
    simp [List.length_drop]; omega
  obtain ⟨he, hw⟩ := prefix_split h hlen
  rw [List.length_drop] at he hw
  refine ⟨by rw [he], ?_⟩
  simpa [occursAt] using hw

/-- A pattern is border-free when no proper nonempty suffix of it is also a
prefix of it; the two patterns the script counts with are border-free, which
makes the non-overlapping Python `str.count` agree with `countOcc`. -/
def borderFree (pat : List Char) : Prop :=
  ∀ d, d < pat.length → 0 < d → ¬ pat.drop d <+: pat

instance (pat : List Char) : Decidable (borderFree pat) :=
  inferInstanceAs (Decidable (∀ d, d < pat.length → 0 < d → ¬ pat.drop d <+: pat))

theorem not_occursAt_of_borderFree {pat s : List Char} {j : Nat}
    (hb : borderFree pat) (h0 : pat <+: s) (hj : 0 < j) (hjl : j < pat.length) :
    ¬ occursAt pat s j := by
  intro hocc
  obtain ⟨t, ht⟩ := h0
  unfold occursAt at hocc
  rw [← ht, List.drop_append_of_le_length (by omega)] at hocc
  obtain ⟨he, _⟩ := prefix_split hocc (by simp [List.length_drop])
  rw [List.length_drop] at he
  apply hb j hjl hj
  rw [he]
  exact ⟨pat.drop (pat.length - j), List.take_append_drop _ _⟩

theorem countOcc_of_head_match {pat s : List Char} (hp : pat ≠ [])
    (hb : borderFree pat) (h0 : pat <+: s) :
    countOcc pat s = 1 + countOcc pat (s.drop pat.length) := by
  cases s with
  | nil => exact absurd (List.prefix_nil.mp h0) hp
  | cons c rest =>
    rw [countOcc_cons, if_pos h0]
    have hlen : 0 < pat.length := List.length_pos.mpr hp
    have hstep : countOcc pat rest = countOcc pat (rest.drop (pat.length - 1)) := by
      apply countOcc_drop_of_not_occ
      intro j hj hocc
      exact not_occursAt_of_borderFree hb h0 (by omega) (by omega)
        (occursAt_cons_succ.mpr hocc)
    obtain ⟨k, hk⟩ : ∃ k, pat.length = k + 1 := ⟨pat.length - 1, by omega⟩
    rw [hstep, hk, List.drop_succ_cons]
    simp

theorem pyCountAux_skip (pat : List Char) :
    ∀ (k : Nat) (s : List Char) (acc : Nat),
      pyCountAux pat k acc s = pyCountAux pat 0 acc (s.drop k) := by
  intro k
  induction k with
  | zero => intro s acc; rw [List.drop_zero]
  | succ m ih =>
    intro s acc
    cases s with
    | nil => simp [pyCountAux]
    | cons c rest =>
      rw [List.drop_succ_cons]
      exact ih rest acc

theorem pyCountAux_eq_countOcc {pat : List Char} (hp : pat ≠ [])
    (hb : borderFree pat) :
    ∀ (n : Nat) (s : List Char), s.length ≤ n → ∀ acc : Nat,
      pyCountAux pat 0 acc s = acc + countOcc pat s := by
  intro n
  induction n with
  | zero =>
    intro s hs acc
    have hnil : s = [] := List.eq_nil_of_length_eq_zero (by omega)
    subst hnil
    simp [pyCountAux, countOcc]
  | succ m ih =>
    intro s hs acc
    cases s with
    | nil => simp [pyCountAux, countOcc]
    | cons c rest =>
      by_cases h : pat <+: (c :: rest)
      · have hbt : pat.isPrefixOf (c :: rest) = true := List.isPrefixOf_iff_prefix.mpr h
        have hlen : 0 < pat.length := List.length_pos.mpr hp
        rw [show pyCountAux pat 0 acc (c :: rest) =
            pyCountAux pat (pat.length - 1) (acc + 1) rest from by
          simp [pyCountAux, hbt]]
        rw [pyCountAux_skip]
        have hrest : (rest.drop (pat.length - 1)).length ≤ m := by
          simp only [List.length_drop]
          simp only [List.length_cons] at hs
          omega
        rw [ih _ hrest]
        rw [countOcc_of_head_match hp hb h]
        obtain ⟨k, hk⟩ : ∃ k, pat.length = k + 1 := ⟨pat.length - 1, by omega⟩
        rw [hk, List.drop_succ_cons]
        have : k + 1 - 1 = k := by omega
        rw [this]
        omega
      · have hbf : pat.isPrefixOf (c :: rest) = false := by
          rw [Bool.eq_false_iff]
          exact fun hh => h (List.isPrefixOf_iff_prefix.mp hh)
        rw [show pyCountAux pat 0 acc (c :: rest) = pyCountAux pat 0 acc rest from by
          simp [pyCountAux, hbf]]
        rw [ih rest (by simp at hs; omega) acc, countOcc_cons, if_neg h]
        omega

theorem pyCount_eq_countOcc {pat s : List Char} (hp : pat ≠ []) (hb : borderFree pat) :
    pyCount pat s = countOcc pat s := by
  have := pyCountAux_eq_countOcc hp hb s.length s (le_refl _) 0
  simpa [pyCount] using this

/-! ## Concrete facts about the string constants of the script

All facts that require scanning the whole of `CLEAN_METHOD` are stated via
the tail-recursive `scanCount`/`List.drop` so that kernel evaluation stays in
constant stack space. -/

theorem PATTERN_length : PATTERN.data.length = 34 := by decide

theorem ANCHOR_length : ANCHOR.data.length = 41 := by decide

theorem COUNT_PATTERN_length : COUNT_PATTERN.data.length = 33 := by decide

theorem PATTERN_ne_nil : PATTERN.data ≠ [] := by decide

theorem ANCHOR_ne_nil : ANCHOR.data ≠ [] := by decide

theorem COUNT_PATTERN_ne_nil : COUNT_PATTERN.data ≠ [] := by decide

theorem CLEAN_drop_2334 : CLEAN_METHOD.data.drop 2334 = ['\n'] := by decide

theorem CLEAN_drop_2335 : CLEAN_METHOD.data.drop 2335 = [] := by decide

theorem CLEAN_length : CLEAN_METHOD.data.length = 2335 := by
  have l1 := congrArg List.length CLEAN_drop_2334
  have l2 := congrArg List.length CLEAN_drop_2335
  simp only [List.length_drop, List.length_cons, List.length_nil] at l1 l2
  omega

theorem CLEAN_countOcc_PATTERN : countOcc PATTERN.data CLEAN_METHOD.data = 1 := by
  have h := scanCount_eq PATTERN.data CLEAN_METHOD.data 0
  have hs : scanCount PATTERN.data 0 CLEAN_METHOD.data = 1 := by decide
  omega

theorem CLEAN_countOcc_ANCHOR : countOcc ANCHOR.data CLEAN_METHOD.data = 0 := by
  have h := scanCount_eq ANCHOR.data CLEAN_METHOD.data 0
  have hs : scanCount ANCHOR.data 0 CLEAN_METHOD.data = 0 := by decide
  omega

theorem CLEAN_not_occ_ANCHOR : ∀ i, ¬ occursAt ANCHOR.data CLEAN_METHOD.data i :=
  (countOcc_eq_zero_iff ANCHOR_ne_nil).mp CLEAN_countOcc_ANCHOR

theorem CLEAN_countOcc_COUNT : countOcc COUNT_PATTERN.data CLEAN_METHOD.data = 1 := by
  have h := scanCount_eq COUNT_PATTERN.data CLEAN_METHOD.data 0
  have hs : scanCount COUNT_PATTERN.data 0 CLEAN_METHOD.data = 1 := by decide
  omega

theorem CLEAN_occ_PATTERN_4 : occursAt PATTERN.data CLEAN_METHOD.data 4 := by decide

theorem CLEAN_occ_COUNT_4 : occursAt COUNT_PATTERN.data CLEAN_METHOD.data 4 := by decide

theorem CLEAN_PATTERN_unique : ∀ j, occursAt PATTERN.data CLEAN_METHOD.data j → j = 4 :=
  fun _ hj => eq_of_countOcc_eq_one PATTERN_ne_nil CLEAN_countOcc_PATTERN hj CLEAN_occ_PATTERN_4

theorem CLEAN_take_4 : CLEAN_METHOD.data.take 4 = [' ', ' ', ' ', ' '] := by decide

theorem COUNT_borderFree : borderFree COUNT_PATTERN.data := by decide

theorem PATTERN_no_newline : ∀ j, j < 34 → (PATTERN.data.drop j).take 1 ≠ ['\n'] := by decide

theorem ANCHOR_tail_no_newline :
    ∀ j, j < 41 → 0 < j → (ANCHOR.data.drop j).take 1 ≠ ['\n'] := by decide

theorem ANCHOR_head : ANCHOR.data.take 1 = ['\n'] := by decide

theorem ANCHOR_drop1_head : (ANCHOR.data.drop 1).take 1 = [' '] := by decide

theorem PATTERN_drop_not_prefix_CLEAN_take :
    ∀ d, d < 34 → 0 < d → ¬ PATTERN.data.drop d <+: CLEAN_METHOD.data.take 34 := by decide

theorem CLEAN_countOcc_COUNT_drop4 :
    countOcc COUNT_PATTERN.data (CLEAN_METHOD.data.drop 4) = 1 := by
  rw [← countOcc_drop_of_not_occ 4 ?hlt]
  · exact CLEAN_countOcc_COUNT
  case hlt =>
    intro j hj hocc
    have := eq_of_countOcc_eq_one COUNT_PATTERN_ne_nil CLEAN_countOcc_COUNT hocc CLEAN_occ_COUNT_4
    omega

/-! ## Unfolding the run of the script -/

theorem runFix_eq_fixed {content : List Char} {p r : Nat}
    (h1 : strFind PATTERN.data content = some p)
    (h2 : strFind ANCHOR.data (content.drop p) = some r) :
    runFix content =
      .fixed (content.take p ++ CLEAN_METHOD.data ++ content.drop (p + r))
        (pyCount COUNT_PATTERN.data ((content.drop p).take r)) := by
  simp [runFix, h1, h2]

theorem runFix_eq_errNoPattern {content : List Char}
    (h : strFind PATTERN.data content = none) : runFix content = .errNoPattern := by
  simp [runFix, h]

theorem runFix_eq_errNoAnchor {content : List Char} {p : Nat}
    (h1 : strFind PATTERN.data content = some p)
    (h2 : strFind ANCHOR.data (content.drop p) = none) :
    runFix content = .errNoAnchor := by
  simp [runFix, h1, h2]

/-! ## Occurrence analysis of the rewritten document

`++` is left associative, so the written-back text
`content.take p ++ CLEAN_METHOD.data ++ content.drop (p + r)` is parsed as
`(content.take p ++ CLEAN_METHOD.data) ++ content.drop (p + r)`; the lemmas
below re-associate as needed. -/

theorem first_match_facts {content : List Char} {p : Nat}
    (h1 : strFind PATTERN.data content = some p) :
    occursAt PATTERN.data content p ∧ (∀ m, m < p → ¬ occursAt PATTERN.data content m) ∧
      p + 34 ≤ content.length := by
  obtain ⟨hocc, hmin⟩ := strFind_some_iff.mp h1
  refine ⟨hocc, hmin, ?_⟩
  have h := occursAt_length PATTERN_ne_nil hocc
  rw [PATTERN_length] at h
  exact h

theorem anchor_facts {content : List Char} {p r : Nat}
    (h2 : strFind ANCHOR.data (content.drop p) = some r) :
    occursAt ANCHOR.data content (p + r) ∧
      ∀ j, p ≤ j → j < p + r → ¬ occursAt ANCHOR.data content j := by
  obtain ⟨hocc, hmin⟩ := strFind_some_iff.mp h2
  refine ⟨occursAt_drop.mp hocc, ?_⟩
  intro j hj1 hj2 hc
  have hc' : occursAt ANCHOR.data (content.drop p) (j - p) := by
    apply occursAt_drop.mpr
    rw [show p + (j - p) = j from by omega]
    exact hc
  exact hmin (j - p) (by omega) hc'

theorem output_take_p {content : List Char} {p r : Nat}
    (h1 : strFind PATTERN.data content = some p) :
    (content.take p ++ CLEAN_METHOD.data ++ content.drop (p + r)).take p =
      content.take p := by
  have hp := (first_match_facts h1).2.2
  rw [List.append_assoc]
  apply List.take_left'
  simp only [List.length_take]
  omega

theorem output_drop_p {content : List Char} {p r : Nat}
    (h1 : strFind PATTERN.data content = some p) :
    (content.take p ++ CLEAN_METHOD.data ++ content.drop (p + r)).drop p =
      CLEAN_METHOD.data ++ content.drop (p + r) := by
  have hp := (first_match_facts h1).2.2
  rw [List.append_assoc]
  apply List.drop_left'
  simp only [List.length_take]
  omega

theorem output_drop_pClean {content : List Char} {p r : Nat}
    (h1 : strFind PATTERN.data content = some p) :
    (content.take p ++ CLEAN_METHOD.data ++ content.drop (p + r)).drop
        (p + CLEAN_METHOD.data.length) =
      content.drop (p + r) := by
  rw [← List.drop_drop, output_drop_p h1, List.drop_left]

theorem output_occ_at {content : List Char} {p r : Nat}
    (h1 : strFind PATTERN.data content = some p) :
    occursAt PATTERN.data
      (content.take p ++ CLEAN_METHOD.data ++ content.drop (p + r)) (p + 4) := by
  apply occursAt_drop.mp
  rw [output_drop_p h1]
  exact occursAt_into_left_append CLEAN_occ_PATTERN_4

theorem output_occ_CLEAN {content : List Char} {p r : Nat}
    (h1 : strFind PATTERN.data content = some p) :
    occursAt CLEAN_METHOD.data
      (content.take p ++ CLEAN_METHOD.data ++ content.drop (p + r)) p := by
  have h0 : occursAt CLEAN_METHOD.data
      ((content.take p ++ CLEAN_METHOD.data ++ content.drop (p + r)).drop p) 0 := by
    rw [output_drop_p h1]
    exact occursAt_zero_iff.mpr (List.prefix_append _ _)
  have h2 := occursAt_drop.mp h0
  simpa using h2

theorem output_no_occ_before {content : List Char} {p r : Nat}
    (h1 : strFind PATTERN.data content = some p) :
    ∀ m, m < p + 4 →
      ¬ occursAt PATTERN.data
        (content.take p ++ CLEAN_METHOD.data ++ content.drop (p + r)) m := by
  obtain ⟨hocc, hmin, hlen⟩ := first_match_facts h1
  have hA : (content.take p).length = p := by
    simp only [List.length_take]
    omega
  intro m hm hcon
  rw [List.append_assoc] at hcon
  by_cases hc1 : m + 34 ≤ p
  · have h' : occursAt PATTERN.data (content.take p) m := by
      rw [occursAt_append_left (by rw [hA, PATTERN_length]; omega)] at hcon
      exact hcon
    have h'' : PATTERN.data <+: content.drop m := by
      unfold occursAt at h'
      rw [List.drop_take] at h'
      exact (List.prefix_take_iff.mp h').1
    exact hmin m (by omega) h''
  · by_cases hc2 : m < p
    · obtain ⟨-, hocc0⟩ :=
        @occursAt_straddle PATTERN.data (content.take p)
          (CLEAN_METHOD.data ++ content.drop (p + r)) m hcon
          (by rw [hA]; omega) (by rw [hA, PATTERN_length]; omega)
      rw [hA] at hocc0
      have hpre : PATTERN.data.drop (p - m) <+:
          CLEAN_METHOD.data ++ content.drop (p + r) := occursAt_zero_iff.mp hocc0
      have hlen2 : (PATTERN.data.drop (p - m)).length ≤ CLEAN_METHOD.data.length := by
        simp only [List.length_drop, PATTERN_length, CLEAN_length]
        omega
      have hpre2 : PATTERN.data.drop (p - m) <+: CLEAN_METHOD.data :=
        (prefix_append_iff_left hlen2).mp hpre
      have hpre3 : PATTERN.data.drop (p - m) <+: CLEAN_METHOD.data.take 34 := by
        rw [List.prefix_take_iff]
        refine ⟨hpre2, ?_⟩
        simp only [List.length_drop, PATTERN_length]
        omega
      exact PATTERN_drop_not_prefix_CLEAN_take (p - m) (by omega) (by omega) hpre3
    · have hk : occursAt PATTERN.data
          (CLEAN_METHOD.data ++ content.drop (p + r)) (m - p) := by
        have h'' : occursAt PATTERN.data
            ((content.take p ++ (CLEAN_METHOD.data ++ content.drop (p + r))).drop p)
            (m - p) := by
          apply occursAt_drop.mpr
          rw [show p + (m - p) = m from by omega]
          exact hcon
        rwa [List.drop_left' hA] at h''
      have h' : occursAt PATTERN.data CLEAN_METHOD.data (m - p) := by
        rw [occursAt_append_left (by rw [PATTERN_length, CLEAN_length]; omega)] at hk
        exact hk
      have := CLEAN_PATTERN_unique _ h'
      omega

theorem output_no_occ_after {content : List Char} {p r : Nat}
    (h1 : strFind PATTERN.data content = some p)
    (hsuf : ∀ i, ¬ occursAt PATTERN.data (content.drop (p + r)) i) :
    ∀ m, p + 4 < m →
      ¬ occursAt PATTERN.data
        (content.take p ++ CLEAN_METHOD.data ++ content.drop (p + r)) m := by
  obtain ⟨hocc, hmin, hlen⟩ := first_match_facts h1
  have hA : (content.take p).length = p := by
    simp only [List.length_take]
    omega
  intro m hm hcon
  rw [List.append_assoc] at hcon
  have hk : occursAt PATTERN.data
      (CLEAN_METHOD.data ++ content.drop (p + r)) (m - p) := by
    have h'' : occursAt PATTERN.data
        ((content.take p ++ (CLEAN_METHOD.data ++ content.drop (p + r))).drop p)
        (m - p) := by
      apply occursAt_drop.mpr
      rw [show p + (m - p) = m from by omega]
      exact hcon
    rwa [List.drop_left' hA] at h''
  by_cases hc1 : (m - p) + 34 ≤ 2335
  · have h' : occursAt PATTERN.data CLEAN_METHOD.data (m - p) := by
      rw [occursAt_append_left (by rw [PATTERN_length, CLEAN_length]; omega)] at hk
      exact hk
    have := CLEAN_PATTERN_unique _ h'
    omega
  · by_cases hc2 : m - p < 2335
    · obtain ⟨heq, -⟩ :=
        @occursAt_straddle PATTERN.data CLEAN_METHOD.data (content.drop (p + r))
          (m - p) hk (by rw [CLEAN_length]; omega)
          (by rw [CLEAN_length, PATTERN_length]; omega)
      rw [CLEAN_length] at heq
      have hstep := congrArg (List.drop (2335 - (m - p) - 1)) heq
      rw [List.drop_drop] at hstep
      rw [show (m - p) + (2335 - (m - p) - 1) = 2334 from by omega] at hstep
      rw [List.drop_take] at hstep
      rw [show 2335 - (m - p) - (2335 - (m - p) - 1) = 1 from by omega] at hstep
      rw [CLEAN_drop_2334] at hstep
      exact PATTERN_no_newline (2335 - (m - p) - 1) (by omega) hstep.symm
    · have h' : occursAt PATTERN.data (content.drop (p + r)) (m - p - 2335) := by
        rw [← show CLEAN_METHOD.data.length + (m - p - 2335) = m - p from by
          rw [CLEAN_length]; omega] at hk
        exact occursAt_append_right.mp hk
      exact hsuf _ h'

theorem output_PATTERN_unique {content : List Char} {p r : Nat}
    (h1 : strFind PATTERN.data content = some p)
    (hsuf : ∀ i, ¬ occursAt PATTERN.data (content.drop (p + r)) i) :
    ∀ m, occursAt PATTERN.data
        (content.take p ++ CLEAN_METHOD.data ++ content.drop (p + r)) m → m = p + 4 := by
  intro m hm
  by_contra hne
  rcases Nat.lt_or_ge m (p + 4) with h | h
  · exact output_no_occ_before h1 m h hm
  · exact output_no_occ_after h1 hsuf m (by omega) hm

theorem output_countOcc_PATTERN {content : List Char} {p r : Nat}
    (h1 : strFind PATTERN.data content = some p)
    (hsuf : ∀ i, ¬ occursAt PATTERN.data (content.drop (p + r)) i) :
    countOcc PATTERN.data
      (content.take p ++ CLEAN_METHOD.data ++ content.drop (p + r)) = 1 :=
  countOcc_eq_one_of_unique (output_occ_at h1) (output_PATTERN_unique h1 hsuf)

theorem output_countOcc_CLEAN {content : List Char} {p r : Nat}
    (h1 : strFind PATTERN.data content = some p)
    (hsuf : ∀ i, ¬ occursAt PATTERN.data (content.drop (p + r)) i) :
    countOcc CLEAN_METHOD.data
      (content.take p ++ CLEAN_METHOD.data ++ content.drop (p + r)) = 1 := by
  apply countOcc_eq_one_of_unique (output_occ_CLEAN h1)
  intro q hq
  have hP := occursAt_trans CLEAN_occ_PATTERN_4 (by rw [CLEAN_length]; omega) hq
  have := output_PATTERN_unique h1 hsuf _ hP
  omega

/-! ## The second run of the script on its own output -/

theorem take_one_eq_of_prefix {x y : List Char} (h : x <+: y) (hx : x ≠ []) :
    x.take 1 = y.take 1 := by
  have he : x = y.take x.length := List.prefix_iff_eq_take.mp h
  have h1 : 1 ≤ x.length := List.length_pos.mpr hx
  calc x.take 1 = (y.take x.length).take 1 := by rw [← he]
    _ = y.take 1 := by
        rw [List.take_take]
        congr 1
        omega

theorem anchor_prefix_suffix {content : List Char} {p r : Nat}
    (h2 : strFind ANCHOR.data (content.drop p) = some r) :
    ANCHOR.data <+: content.drop (p + r) := by
  have hocc := (strFind_some_iff.mp h2).1
  unfold occursAt at hocc
  rwa [List.drop_drop] at hocc

theorem second_find_PATTERN {content : List Char} {p r : Nat}
    (h1 : strFind PATTERN.data content = some p) :
    strFind PATTERN.data
      (content.take p ++ CLEAN_METHOD.data ++ content.drop (p + r)) = some (p + 4) :=
  strFind_some_iff.mpr ⟨output_occ_at h1, fun m hm => output_no_occ_before h1 m hm⟩

theorem output_drop_p4 {content : List Char} {p r : Nat}
    (h1 : strFind PATTERN.data content = some p) :
    (content.take p ++ CLEAN_METHOD.data ++ content.drop (p + r)).drop (p + 4) =
      CLEAN_METHOD.data.drop 4 ++ content.drop (p + r) := by
  rw [← List.drop_drop, output_drop_p h1,
    List.drop_append_of_le_length (by rw [CLEAN_length]; omega)]

theorem second_anchor_find {B : List Char} (hB : ANCHOR.data <+: B) :
    strFind ANCHOR.data (CLEAN_METHOD.data.drop 4 ++ B) = some 2331 := by
  have hlen4 : (CLEAN_METHOD.data.drop 4).length = 2331 := by
    rw [List.length_drop, CLEAN_length]
  apply strFind_some_iff.mpr
  constructor
  · have h0 : occursAt ANCHOR.data B 0 := occursAt_zero_iff.mpr hB
    have h2 := (@occursAt_append_right ANCHOR.data (CLEAN_METHOD.data.drop 4) B 0).mpr h0
    rw [hlen4] at h2
    simpa using h2
  · intro m hm hc
    by_cases hc1 : m + 41 ≤ 2331
    · have h' : occursAt ANCHOR.data (CLEAN_METHOD.data.drop 4) m := by
        rw [occursAt_append_left (by rw [ANCHOR_length, hlen4]; omega)] at hc
        exact hc
      exact CLEAN_not_occ_ANCHOR (4 + m) (occursAt_drop.mp h')
    · obtain ⟨heq, hocc0⟩ :=
        @occursAt_straddle ANCHOR.data (CLEAN_METHOD.data.drop 4) B m hc
          (by rw [hlen4]; omega) (by rw [hlen4, ANCHOR_length]; omega)
      rw [hlen4] at heq hocc0
      rw [List.drop_drop] at heq
      by_cases hd : 2331 - m = 1
      · rw [hd] at hocc0
        have hpre : ANCHOR.data.drop 1 <+: B := occursAt_zero_iff.mp hocc0
        have e1 : (ANCHOR.data.drop 1).take 1 = B.take 1 :=
          take_one_eq_of_prefix hpre (by decide)
        have e2 : ANCHOR.data.take 1 = B.take 1 :=
          take_one_eq_of_prefix hB ANCHOR_ne_nil
        rw [ANCHOR_drop1_head] at e1
        rw [ANCHOR_head] at e2
        rw [← e2] at e1
        exact absurd e1 (by decide)
      · have hstep := congrArg (List.drop (2331 - m - 1)) heq
        rw [List.drop_drop] at hstep
        rw [show 4 + m + (2331 - m - 1) = 2334 from by omega] at hstep
        rw [List.drop_take] at hstep
        rw [show 2331 - m - (2331 - m - 1) = 1 from by omega] at hstep
        rw [CLEAN_drop_2334] at hstep
        exact ANCHOR_tail_no_newline (2331 - m - 1) (by omega) (by omega) hstep.symm

theorem second_run_eq {content : List Char} {p r : Nat}
    (h1 : strFind PATTERN.data content = some p)
    (h2 : strFind ANCHOR.data (content.drop p) = some r) :
    runFix (content.take p ++ CLEAN_METHOD.data ++ content.drop (p + r)) =
      .fixed
        ((content.take p ++ CLEAN_METHOD.data ++ content.drop (p + r)).take (p + 4) ++
          CLEAN_METHOD.data ++ content.drop (p + r)) 1 := by
  have hB := anchor_prefix_suffix h2
  have sf2 : strFind ANCHOR.data
      ((content.take p ++ CLEAN_METHOD.data ++ content.drop (p + r)).drop (p + 4)) =
      some 2331 := by
    rw [output_drop_p4 h1]
    exact second_anchor_find hB
  have hrun := runFix_eq_fixed (second_find_PATTERN h1) sf2
  rw [hrun]
  have hlen4 : (CLEAN_METHOD.data.drop 4).length = 2331 := by
    rw [List.length_drop, CLEAN_length]
  have hdrop : (content.take p ++ CLEAN_METHOD.data ++ content.drop (p + r)).drop
      (p + 4 + 2331) = content.drop (p + r) := by
    rw [show p + 4 + 2331 = p + CLEAN_METHOD.data.length from by rw [CLEAN_length]]
    exact output_drop_pClean h1
  have hregion : ((content.take p ++ CLEAN_METHOD.data ++ content.drop (p + r)).drop
      (p + 4)).take 2331 = CLEAN_METHOD.data.drop 4 := by
    rw [output_drop_p4 h1]
    exact List.take_left' hlen4
  have hcount : pyCount COUNT_PATTERN.data
      (((content.take p ++ CLEAN_METHOD.data ++ content.drop (p + r)).drop
        (p + 4)).take 2331) = 1 := by
    rw [hregion, pyCount_eq_countOcc COUNT_PATTERN_ne_nil COUNT_borderFree]
    exact CLEAN_countOcc_COUNT_drop4
  rw [hdrop, hcount]

theorem second_run_ne {content : List Char} {p r : Nat}
    (h1 : strFind PATTERN.data content = some p) :
    (content.take p ++ CLEAN_METHOD.data ++ content.drop (p + r)).take (p + 4) ++
        CLEAN_METHOD.data ++ content.drop (p + r) ≠
      content.take p ++ CLEAN_METHOD.data ++ content.drop (p + r) := by
  intro heq
  have hlen := congrArg List.length heq
  have hp := (first_match_facts h1).2.2
  simp only [List.length_append, List.length_take, CLEAN_length] at hlen
  omega

theorem CLEAN_ne_nil : CLEAN_METHOD.data ≠ [] := by
  intro h
  have := CLEAN_length
  rw [h] at this
  simp at this

/-! ## Claim C1 -/

/-- Claim C1 (amended): if the block pattern first occurs at `p`, the anchor
first occurs at `p + r` (at or after `p`), and the block pattern does not
occur anywhere from the anchor onward, then the run rewrites the document,
the result contains exactly one occurrence of the canonical block
`CLEAN_METHOD`, that occurrence is positioned at `p` where the first
occurrence previously began, and every character from the anchor position
onward is unchanged.  The unamended claim has no third hypothesis; it is
refuted by `c1_counterexample`, where the canonical text already occurs after
the anchor. -/
theorem c1_replace_all_fidelity {content : List Char} {p r : Nat}
    (h1 : strFind PATTERN.data content = some p)
    (h2 : strFind ANCHOR.data (content.drop p) = some r)
    (h3 : countOcc PATTERN.data (content.drop (p + r)) = 0) :
    runFix content =
      .fixed (content.take p ++ CLEAN_METHOD.data ++ content.drop (p + r))
        (pyCount COUNT_PATTERN.data ((content.drop p).take r)) ∧
    countOcc CLEAN_METHOD.data
      (content.take p ++ CLEAN_METHOD.data ++ content.drop (p + r)) = 1 ∧
    occursAt CLEAN_METHOD.data
      (content.take p ++ CLEAN_METHOD.data ++ content.drop (p + r)) p ∧
    (content.take p ++ CLEAN_METHOD.data ++ content.drop (p + r)).drop
      (p + CLEAN_METHOD.data.length) = content.drop (p + r) := by
  have hsuf := (countOcc_eq_zero_iff PATTERN_ne_nil).mp h3
  exact ⟨runFix_eq_fixed h1 h2, output_countOcc_CLEAN h1 hsuf, output_occ_CLEAN h1,
    output_drop_pClean h1⟩

/-- Claim C1, counterexample to the unamended statement: the document
consists of the block pattern, the anchor, and then a full copy of the
canonical method text after the anchor.  The run succeeds, but its output
contains the canonical block twice, not exactly once. -/
theorem c1_counterexample :
    runFix (PATTERN.data ++ ANCHOR.data ++ CLEAN_METHOD.data) =
      .fixed (CLEAN_METHOD.data ++ (ANCHOR.data ++ CLEAN_METHOD.data)) 1 ∧
    countOcc CLEAN_METHOD.data
      (CLEAN_METHOD.data ++ (ANCHOR.data ++ CLEAN_METHOD.data)) ≠ 1 := by
  have h1 : strFind PATTERN.data (PATTERN.data ++ ANCHOR.data ++ CLEAN_METHOD.data) =
      some 0 := by decide
  have h2 : strFind ANCHOR.data
      ((PATTERN.data ++ ANCHOR.data ++ CLEAN_METHOD.data).drop 0) = some 34 := by decide
  constructor
  · rw [runFix_eq_fixed h1 h2]
    have e1 : (PATTERN.data ++ ANCHOR.data ++ CLEAN_METHOD.data).take 0 = [] := rfl
    have e2 : (PATTERN.data ++ ANCHOR.data ++ CLEAN_METHOD.data).drop (0 + 34) =
        ANCHOR.data ++ CLEAN_METHOD.data := by
      rw [List.append_assoc]
      exact List.drop_left' PATTERN_length
    have e3 : ((PATTERN.data ++ ANCHOR.data ++ CLEAN_METHOD.data).drop 0).take 34 =
        PATTERN.data := by
      rw [List.drop_zero, List.append_assoc]
      exact List.take_left' PATTERN_length
    rw [e1, e2, e3, List.nil_append]
    have e4 : pyCount COUNT_PATTERN.data PATTERN.data = 1 := by decide
    rw [e4]
  · have occ0 : occursAt CLEAN_METHOD.data
        (CLEAN_METHOD.data ++ (ANCHOR.data ++ CLEAN_METHOD.data)) 0 :=
      occursAt_zero_iff.mpr (List.prefix_append _ _)
    have occ2 : occursAt CLEAN_METHOD.data
        (CLEAN_METHOD.data ++ (ANCHOR.data ++ CLEAN_METHOD.data)) (2335 + 41) := by
      unfold occursAt
      rw [show (2335 + 41 : Nat) = CLEAN_METHOD.data.length + 41 from by
        rw [CLEAN_length], List.drop_append, List.drop_left' ANCHOR_length]
    have h2le := two_le_countOcc CLEAN_ne_nil occ0 occ2 (by omega)
    omega

/-- Witness for `c1_replace_all_fidelity`: a document with two copies of the
block pattern, junk between them, the anchor, and a tail that contains no
further copy of the pattern. -/
theorem c1_witness :
    runFix ("Hello ".data ++ PATTERN.data ++ "xy".data ++ PATTERN.data ++
        "zz".data ++ ANCHOR.data ++ " tail".data) =
      .fixed (("Hello ".data ++ PATTERN.data ++ "xy".data ++ PATTERN.data ++
          "zz".data ++ ANCHOR.data ++ " tail".data).take 6 ++ CLEAN_METHOD.data ++
          ("Hello ".data ++ PATTERN.data ++ "xy".data ++ PATTERN.data ++
          "zz".data ++ ANCHOR.data ++ " tail".data).drop (6 + 72))
        (pyCount COUNT_PATTERN.data
          ((("Hello ".data ++ PATTERN.data ++ "xy".data ++ PATTERN.data ++
          "zz".data ++ ANCHOR.data ++ " tail".data).drop 6).take 72)) ∧
    countOcc CLEAN_METHOD.data
      (("Hello ".data ++ PATTERN.data ++ "xy".data ++ PATTERN.data ++
        "zz".data ++ ANCHOR.data ++ " tail".data).take 6 ++ CLEAN_METHOD.data ++
        ("Hello ".data ++ PATTERN.data ++ "xy".data ++ PATTERN.data ++
        "zz".data ++ ANCHOR.data ++ " tail".data).drop (6 + 72)) = 1 ∧
    occursAt CLEAN_METHOD.data
      (("Hello ".data ++ PATTERN.data ++ "xy".data ++ PATTERN.data ++
        "zz".data ++ ANCHOR.data ++ " tail".data).take 6 ++ CLEAN_METHOD.data ++
        ("Hello ".data ++ PATTERN.data ++ "xy".data ++ PATTERN.data ++
        "zz".data ++ ANCHOR.data ++ " tail".data).drop (6 + 72)) 6 ∧
    (("Hello ".data ++ PATTERN.data ++ "xy".data ++ PATTERN.data ++
        "zz".data ++ ANCHOR.data ++ " tail".data).take 6 ++ CLEAN_METHOD.data ++
        ("Hello ".data ++ PATTERN.data ++ "xy".data ++ PATTERN.data ++
        "zz".data ++ ANCHOR.data ++ " tail".data).drop (6 + 72)).drop
      (6 + CLEAN_METHOD.data.length) =
      ("Hello ".data ++ PATTERN.data ++ "xy".data ++ PATTERN.data ++
        "zz".data ++ ANCHOR.data ++ " tail".data).drop (6 + 72) :=
  c1_replace_all_fidelity (by decide) (by decide) (by decide)

/-! ## Claim C2 -/

/-- Claim C2 (amended): after a successful run in which the block pattern
does not occur from the anchor position onward, the resulting document
contains exactly one occurrence of the block pattern, the text before the
first occurrence is preserved character for character, and the text from the
anchor onward is preserved character for character (so the relative order of
all untouched text is preserved).  The unamended claim, without the third
hypothesis, is refuted by `c2_counterexample`, where a copy of the block
pattern survives after the anchor. -/
theorem c2_exactly_one_invariant {content : List Char} {p r : Nat}
    (h1 : strFind PATTERN.data content = some p)
    (h2 : strFind ANCHOR.data (content.drop p) = some r)
    (h3 : countOcc PATTERN.data (content.drop (p + r)) = 0) :
    runFix content =
      .fixed (content.take p ++ CLEAN_METHOD.data ++ content.drop (p + r))
        (pyCount COUNT_PATTERN.data ((content.drop p).take r)) ∧
    countOcc PATTERN.data
      (content.take p ++ CLEAN_METHOD.data ++ content.drop (p + r)) = 1 ∧
    (content.take p ++ CLEAN_METHOD.data ++ content.drop (p + r)).take p =
      content.take p ∧
    (content.take p ++ CLEAN_METHOD.data ++ content.drop (p + r)).drop
      (p + CLEAN_METHOD.data.length) = content.drop (p + r) := by
  have hsuf := (countOcc_eq_zero_iff PATTERN_ne_nil).mp h3
  exact ⟨runFix_eq_fixed h1 h2, output_countOcc_PATTERN h1 hsuf, output_take_p h1,
    output_drop_pClean h1⟩

/-- Claim C2, counterexample to the unamended statement: a document with the
block pattern, the anchor, and a second copy of the block pattern after the
anchor.  The run succeeds but its output contains the block pattern twice,
so the "exactly one occurrence" invariant fails. -/
theorem c2_counterexample :
    runFix (PATTERN.data ++ ANCHOR.data ++ "Z".data ++ PATTERN.data) =
      .fixed (CLEAN_METHOD.data ++ (ANCHOR.data ++ "Z".data ++ PATTERN.data)) 1 ∧
    countOcc PATTERN.data
      (CLEAN_METHOD.data ++ (ANCHOR.data ++ "Z".data ++ PATTERN.data)) ≠ 1 := by
  have h1 : strFind PATTERN.data
      (PATTERN.data ++ ANCHOR.data ++ "Z".data ++ PATTERN.data) = some 0 := by decide
  have h2 : strFind ANCHOR.data
      ((PATTERN.data ++ ANCHOR.data ++ "Z".data ++ PATTERN.data).drop 0) =
      some 34 := by decide
  constructor
  · rw [runFix_eq_fixed h1 h2]
    have e1 : (PATTERN.data ++ ANCHOR.data ++ "Z".data ++ PATTERN.data).take 0 = [] := rfl
    have e2 : (PATTERN.data ++ ANCHOR.data ++ "Z".data ++ PATTERN.data).drop (0 + 34) =
        ANCHOR.data ++ "Z".data ++ PATTERN.data := by decide
    have e3 : ((PATTERN.data ++ ANCHOR.data ++ "Z".data ++ PATTERN.data).drop 0).take 34 =
        PATTERN.data := by decide
    have e4 : pyCount COUNT_PATTERN.data PATTERN.data = 1 := by decide
    rw [e1, e2, e3, e4, List.nil_append]
  · have occ4 : occursAt PATTERN.data
        (CLEAN_METHOD.data ++ (ANCHOR.data ++ "Z".data ++ PATTERN.data)) 4 :=
      occursAt_into_left_append CLEAN_occ_PATTERN_4
    have occ2 : occursAt PATTERN.data
        (CLEAN_METHOD.data ++ (ANCHOR.data ++ "Z".data ++ PATTERN.data)) (2335 + 42) := by
      have h0 : occursAt PATTERN.data (ANCHOR.data ++ "Z".data ++ PATTERN.data) 42 := by
        decide
      have h2' := (@occursAt_append_right PATTERN.data CLEAN_METHOD.data
        (ANCHOR.data ++ "Z".data ++ PATTERN.data) 42).mpr h0
      rwa [CLEAN_length] at h2'
    have h2le := two_le_countOcc PATTERN_ne_nil occ4 occ2 (by omega)
    omega

/-- Witness for `c2_exactly_one_invariant`: one copy of the block pattern,
some junk, the anchor, and a pattern-free tail. -/
theorem c2_witness :
    runFix ("AB".data ++ PATTERN.data ++ "Q".data ++ ANCHOR.data ++ "end".data) =
      .fixed (("AB".data ++ PATTERN.data ++ "Q".data ++ ANCHOR.data ++
          "end".data).take 2 ++ CLEAN_METHOD.data ++
          ("AB".data ++ PATTERN.data ++ "Q".data ++ ANCHOR.data ++
          "end".data).drop (2 + 35))
        (pyCount COUNT_PATTERN.data
          ((("AB".data ++ PATTERN.data ++ "Q".data ++ ANCHOR.data ++
          "end".data).drop 2).take 35)) ∧
    countOcc PATTERN.data
      (("AB".data ++ PATTERN.data ++ "Q".data ++ ANCHOR.data ++
        "end".data).take 2 ++ CLEAN_METHOD.data ++
        ("AB".data ++ PATTERN.data ++ "Q".data ++ ANCHOR.data ++
        "end".data).drop (2 + 35)) = 1 ∧
    (("AB".data ++ PATTERN.data ++ "Q".data ++ ANCHOR.data ++
        "end".data).take 2 ++ CLEAN_METHOD.data ++
        ("AB".data ++ PATTERN.data ++ "Q".data ++ ANCHOR.data ++
        "end".data).drop (2 + 35)).take 2 =
      ("AB".data ++ PATTERN.data ++ "Q".data ++ ANCHOR.data ++ "end".data).take 2 ∧
    (("AB".data ++ PATTERN.data ++ "Q".data ++ ANCHOR.data ++
        "end".data).take 2 ++ CLEAN_METHOD.data ++
        ("AB".data ++ PATTERN.data ++ "Q".data ++ ANCHOR.data ++
        "end".data).drop (2 + 35)).drop (2 + CLEAN_METHOD.data.length) =
      ("AB".data ++ PATTERN.data ++ "Q".data ++ ANCHOR.data ++ "end".data).drop (2 + 35) :=
  c2_exactly_one_invariant (by decide) (by decide) (by decide)

/-! ## Claim C3 -/

/-- Claim C3 (amended): the repairer is not idempotent.  If the first run
succeeds (`runFix content` rewrites the document to
`content.take p ++ CLEAN_METHOD.data ++ content.drop (p + r)`), then a second
run on that output again succeeds: it finds the block pattern inside the
inserted canonical block (4 characters past its start), reports a count of 1
rather than 0, and rewrites the document to one with the first four
characters of the canonical block (its indentation) duplicated before it —
a document different from the first output.  The unamended claim ("the second
run reports zero duplicates and performs no rewrite, and the result equals
the first output") is refuted by `c3_counterexample`. -/
theorem c3_not_idempotent {content : List Char} {p r : Nat}
    (h1 : strFind PATTERN.data content = some p)
    (h2 : strFind ANCHOR.data (content.drop p) = some r) :
    runFix content =
      .fixed (content.take p ++ CLEAN_METHOD.data ++ content.drop (p + r))
        (pyCount COUNT_PATTERN.data ((content.drop p).take r)) ∧
    runFix (content.take p ++ CLEAN_METHOD.data ++ content.drop (p + r)) =
      .fixed
        ((content.take p ++ CLEAN_METHOD.data ++ content.drop (p + r)).take (p + 4) ++
          CLEAN_METHOD.data ++ content.drop (p + r)) 1 ∧
    (content.take p ++ CLEAN_METHOD.data ++ content.drop (p + r)).take (p + 4) ++
        CLEAN_METHOD.data ++ content.drop (p + r) ≠
      content.take p ++ CLEAN_METHOD.data ++ content.drop (p + r) :=
  ⟨runFix_eq_fixed h1 h2, second_run_eq h1 h2, second_run_ne h1⟩

/-- Claim C3, counterexample: a concrete document on which the first run
succeeds, while the second run performs another rewrite, reports a count of
1 (not 0), and produces a different document (four extra indentation
characters before the canonical block). -/
theorem c3_counterexample :
    runFix ("Q".data ++ PATTERN.data ++ ANCHOR.data ++ "W".data) =
      .fixed ("Q".data ++ CLEAN_METHOD.data ++ (ANCHOR.data ++ "W".data)) 1 ∧
    runFix ("Q".data ++ CLEAN_METHOD.data ++ (ANCHOR.data ++ "W".data)) =
      .fixed (("Q".data ++ CLEAN_METHOD.data ++ (ANCHOR.data ++ "W".data)).take 5 ++
        CLEAN_METHOD.data ++ (ANCHOR.data ++ "W".data)) 1 ∧
    ("Q".data ++ CLEAN_METHOD.data ++ (ANCHOR.data ++ "W".data)).take 5 ++
        CLEAN_METHOD.data ++ (ANCHOR.data ++ "W".data) ≠
      "Q".data ++ CLEAN_METHOD.data ++ (ANCHOR.data ++ "W".data) := by
  have h1 : strFind PATTERN.data ("Q".data ++ PATTERN.data ++ ANCHOR.data ++ "W".data) =
      some 1 := by decide
  have h2 : strFind ANCHOR.data
      (("Q".data ++ PATTERN.data ++ ANCHOR.data ++ "W".data).drop 1) = some 34 := by
    decide
  have e1 : ("Q".data ++ PATTERN.data ++ ANCHOR.data ++ "W".data).take 1 = "Q".data := by
    decide
  have e2 : ("Q".data ++ PATTERN.data ++ ANCHOR.data ++ "W".data).drop (1 + 34) =
      ANCHOR.data ++ "W".data := by decide
  have e3 : pyCount COUNT_PATTERN.data
      ((("Q".data ++ PATTERN.data ++ ANCHOR.data ++ "W".data).drop 1).take 34) = 1 := by
    decide
  have hfst := runFix_eq_fixed h1 h2
  have hsnd := second_run_eq h1 h2
  have hne := @second_run_ne ("Q".data ++ PATTERN.data ++ ANCHOR.data ++ "W".data) 1 34 h1
  rw [e1, e2] at hfst hsnd hne
  rw [e3] at hfst
  rw [show (1 + 4 : Nat) = 5 from rfl] at hsnd hne
  exact ⟨hfst, hsnd, hne⟩

/-- Witness for `c3_not_idempotent` at a concrete document. -/
theorem c3_witness :
    runFix ("A".data ++ PATTERN.data ++ "DUP".data ++ ANCHOR.data ++ "B!".data) =
      .fixed (("A".data ++ PATTERN.data ++ "DUP".data ++ ANCHOR.data ++
          "B!".data).take 1 ++ CLEAN_METHOD.data ++
          ("A".data ++ PATTERN.data ++ "DUP".data ++ ANCHOR.data ++
          "B!".data).drop (1 + 37))
        (pyCount COUNT_PATTERN.data
          ((("A".data ++ PATTERN.data ++ "DUP".data ++ ANCHOR.data ++
          "B!".data).drop 1).take 37)) ∧
    runFix (("A".data ++ PATTERN.data ++ "DUP".data ++ ANCHOR.data ++
        "B!".data).take 1 ++ CLEAN_METHOD.data ++
        ("A".data ++ PATTERN.data ++ "DUP".data ++ ANCHOR.data ++
        "B!".data).drop (1 + 37)) =
      .fixed
        ((("A".data ++ PATTERN.data ++ "DUP".data ++ ANCHOR.data ++
          "B!".data).take 1 ++ CLEAN_METHOD.data ++
          ("A".data ++ PATTERN.data ++ "DUP".data ++ ANCHOR.data ++
          "B!".data).drop (1 + 37)).take (1 + 4) ++ CLEAN_METHOD.data ++
          ("A".data ++ PATTERN.data ++ "DUP".data ++ ANCHOR.data ++
          "B!".data).drop (1 + 37)) 1 ∧
    (("A".data ++ PATTERN.data ++ "DUP".data ++ ANCHOR.data ++
        "B!".data).take 1 ++ CLEAN_METHOD.data ++
        ("A".data ++ PATTERN.data ++ "DUP".data ++ ANCHOR.data ++
        "B!".data).drop (1 + 37)).take (1 + 4) ++ CLEAN_METHOD.data ++
        ("A".data ++ PATTERN.data ++ "DUP".data ++ ANCHOR.data ++
        "B!".data).drop (1 + 37) ≠
      ("A".data ++ PATTERN.data ++ "DUP".data ++ ANCHOR.data ++
        "B!".data).take 1 ++ CLEAN_METHOD.data ++
        ("A".data ++ PATTERN.data ++ "DUP".data ++ ANCHOR.data ++
        "B!".data).drop (1 + 37) :=
  c3_not_idempotent (by decide) (by decide)

/-! ## Claim C4 -/

/-- Claim C4 (amended): the file is overwritten exactly when the block
pattern occurs in the document and the anchor occurs at or after the first
such occurrence — even when only one occurrence is present and no duplicate
is removed.  (The unamended claim — zero or one occurrence means
success-with-no-action and no rewrite — is refuted by `c4_counterexample`:
with zero occurrences the run fails instead of succeeding, and with one
occurrence plus the anchor the file is rewritten with changed content.) -/
theorem c4_write_condition (content : List Char) :
    writesFile (runFix content) = true ↔
      ∃ p, occursAt PATTERN.data content p ∧
        (∀ q, q < p → ¬ occursAt PATTERN.data content q) ∧
        ∃ j, p ≤ j ∧ occursAt ANCHOR.data content j := by
  constructor
  · intro hw
    cases hf : strFind PATTERN.data content with
    | none =>
      rw [runFix_eq_errNoPattern hf] at hw
      simp [writesFile] at hw
    | some p =>
      cases ha : strFind ANCHOR.data (content.drop p) with
      | none =>
        rw [runFix_eq_errNoAnchor hf ha] at hw
        simp [writesFile] at hw
      | some r =>
        obtain ⟨hocc, hmin⟩ := strFind_some_iff.mp hf
        exact ⟨p, hocc, hmin, p + r, by omega, (anchor_facts ha).1⟩
  · rintro ⟨p, hocc, hmin, j, hpj, hanchor⟩
    have hf : strFind PATTERN.data content = some p := strFind_some_iff.mpr ⟨hocc, hmin⟩
    have hanchor' : occursAt ANCHOR.data (content.drop p) (j - p) := by
      apply occursAt_drop.mpr
      rw [show p + (j - p) = j from by omega]
      exact hanchor
    obtain ⟨r, -, ha⟩ := strFind_some_of_occursAt hanchor'
    rw [runFix_eq_fixed hf ha]
    rfl

/-- Claim C4, counterexample: a document with exactly one occurrence of the
block pattern followed by the anchor is rewritten (to different content), so
"one occurrence means no rewrite" fails; and a document with zero
occurrences makes the run fail with the NotFound message rather than succeed
with no action. -/
theorem c4_counterexample :
    countOcc PATTERN.data (PATTERN.data ++ ANCHOR.data) = 1 ∧
    runFix (PATTERN.data ++ ANCHOR.data) =
      .fixed (CLEAN_METHOD.data ++ ANCHOR.data) 1 ∧
    writesFile (runFix (PATTERN.data ++ ANCHOR.data)) = true ∧
    CLEAN_METHOD.data ++ ANCHOR.data ≠ PATTERN.data ++ ANCHOR.data ∧
    runFix "no duplicate method in this text".data = .errNoPattern := by
  have h1 : strFind PATTERN.data (PATTERN.data ++ ANCHOR.data) = some 0 := by decide
  have h2 : strFind ANCHOR.data ((PATTERN.data ++ ANCHOR.data).drop 0) = some 34 := by
    decide
  have hrun : runFix (PATTERN.data ++ ANCHOR.data) =
      .fixed (CLEAN_METHOD.data ++ ANCHOR.data) 1 := by
    rw [runFix_eq_fixed h1 h2]
    have e1 : (PATTERN.data ++ ANCHOR.data).take 0 = [] := rfl
    have e2 : (PATTERN.data ++ ANCHOR.data).drop (0 + 34) = ANCHOR.data :=
      List.drop_left' PATTERN_length
    have e3 : ((PATTERN.data ++ ANCHOR.data).drop 0).take 34 = PATTERN.data := by
      rw [List.drop_zero]
      exact List.take_left' PATTERN_length
    have e4 : pyCount COUNT_PATTERN.data PATTERN.data = 1 := by decide
    rw [e1, e2, e3, e4, List.nil_append]
  refine ⟨by decide, hrun, by rw [hrun]; rfl, ?_, by decide⟩
  intro heq
  have hlen := congrArg List.length heq
  simp only [List.length_append, CLEAN_length, PATTERN_length, ANCHOR_length] at hlen
  omega

/-! ## Claim C5 -/

/-- Claim C5: failure behaviour.  If the block-opening pattern occurs nowhere
in the document, the run ends in the NotFound path: it prints the
`getPrioritizedPages` error message, terminates with exit status 1, and does
not write the file.  If the pattern does occur (first at `p`) but the anchor
occurs nowhere at or after `p`, the run ends in the other NotFound path with
the `optimizeDOMSurgically` error message, exit status 1, and no write.  In
both cases the original file is untouched. -/
theorem c5_failure_behaviour (content : List Char) :
    ((∀ i, ¬ occursAt PATTERN.data content i) →
      runFix content = .errNoPattern ∧ writesFile (runFix content) = false ∧
        exitCode (runFix content) = 1 ∧
        consoleOutput (runFix content) =
          ["❌ Could not find getPrioritizedPages method!"]) ∧
    (∀ p, occursAt PATTERN.data content p →
      (∀ m, m < p → ¬ occursAt PATTERN.data content m) →
      (∀ j, p ≤ j → ¬ occursAt ANCHOR.data content j) →
      runFix content = .errNoAnchor ∧ writesFile (runFix content) = false ∧
        exitCode (runFix content) = 1 ∧
        consoleOutput (runFix content) =
          ["❌ Could not find optimizeDOMSurgically method!"]) := by
  constructor
  · intro hno
    have hf : strFind PATTERN.data content = none := strFind_none_iff.mpr hno
    rw [runFix_eq_errNoPattern hf]
    exact ⟨rfl, rfl, rfl, rfl⟩
  · intro p hocc hmin hanchor
    have hf : strFind PATTERN.data content = some p := strFind_some_iff.mpr ⟨hocc, hmin⟩
    have ha : strFind ANCHOR.data (content.drop p) = none := by
      apply strFind_none_iff.mpr
      intro m hm
      exact hanchor (p + m) (by omega) (occursAt_drop.mp hm)
    rw [runFix_eq_errNoAnchor hf ha]
    exact ⟨rfl, rfl, rfl, rfl⟩

/-- Witness for `c5_failure_behaviour`: a document with no occurrence of the
block pattern at all, and a document that is exactly one copy of the block
pattern (so the anchor occurs nowhere). -/
theorem c5_witness :
    (runFix "just some text".data = .errNoPattern ∧
      writesFile (runFix "just some text".data) = false ∧
      exitCode (runFix "just some text".data) = 1 ∧
      consoleOutput (runFix "just some text".data) =
        ["❌ Could not find getPrioritizedPages method!"]) ∧
    (runFix PATTERN.data = .errNoAnchor ∧
      writesFile (runFix PATTERN.data) = false ∧
      exitCode (runFix PATTERN.data) = 1 ∧
      consoleOutput (runFix PATTERN.data) =
        ["❌ Could not find optimizeDOMSurgically method!"]) :=
  ⟨(c5_failure_behaviour "just some text".data).1
      ((countOcc_eq_zero_iff PATTERN_ne_nil).mp (by decide)),
    (c5_failure_behaviour PATTERN.data).2 0 (by decide)
      (fun m hm => absurd hm (by omega))
      (fun j _ => (countOcc_eq_zero_iff ANCHOR_ne_nil).mp (by decide) j)⟩

/-! ## Claim C6 -/

/-- Claim C6 (amended): on every successful run the script reports the
number of occurrences of the substring `private async getPrioritizedPages`
(without the parenthesis) in the whole excised region — i.e. `k`, counting
the first occurrence too, not `k - 1`.  (The non-overlapping Python
`str.count` agrees with `countOcc` here because the pattern is border-free.)
The unamended claim, that the reported number is `k - 1`, is refuted by
`c6_counterexample`. -/
theorem c6_count_reported {content : List Char} {p r : Nat}
    (h1 : strFind PATTERN.data content = some p)
    (h2 : strFind ANCHOR.data (content.drop p) = some r) :
    runFix content =
      .fixed (content.take p ++ CLEAN_METHOD.data ++ content.drop (p + r))
        (countOcc COUNT_PATTERN.data ((content.drop p).take r)) := by
  rw [runFix_eq_fixed h1 h2,
    pyCount_eq_countOcc COUNT_PATTERN_ne_nil COUNT_borderFree]

/-- Claim C6, counterexample: the excised region contains `k = 2`
occurrences of the block, so the claim predicts a reported count of
`k - 1 = 1`, but the script reports 2. -/
theorem c6_counterexample :
    runFix (PATTERN.data ++ "Y".data ++ PATTERN.data ++ "!!".data ++ ANCHOR.data) =
      .fixed (CLEAN_METHOD.data ++ ANCHOR.data) 2 ∧
    countOcc PATTERN.data
      (((PATTERN.data ++ "Y".data ++ PATTERN.data ++ "!!".data ++
        ANCHOR.data).drop 0).take 71) = 2 ∧
    (2 : Nat) ≠ 2 - 1 := by
  have h1 : strFind PATTERN.data
      (PATTERN.data ++ "Y".data ++ PATTERN.data ++ "!!".data ++ ANCHOR.data) =
      some 0 := by decide
  have h2 : strFind ANCHOR.data
      ((PATTERN.data ++ "Y".data ++ PATTERN.data ++ "!!".data ++ ANCHOR.data).drop 0) =
      some 71 := by decide
  refine ⟨?_, by decide, by omega⟩
  rw [runFix_eq_fixed h1 h2]
  have e1 : (PATTERN.data ++ "Y".data ++ PATTERN.data ++ "!!".data ++
      ANCHOR.data).take 0 = [] := rfl
  have e2 : (PATTERN.data ++ "Y".data ++ PATTERN.data ++ "!!".data ++
      ANCHOR.data).drop (0 + 71) = ANCHOR.data := by decide
  have e3 : pyCount COUNT_PATTERN.data
      (((PATTERN.data ++ "Y".data ++ PATTERN.data ++ "!!".data ++
        ANCHOR.data).drop 0).take 71) = 2 := by decide
  rw [e1, e2, e3, List.nil_append]

/-- Witness for `c6_count_reported`: the excised region of this document
contains two occurrences of the counted substring, and the reported count is
that number (2, not 1). -/
theorem c6_witness :
    runFix ("one ".data ++ PATTERN.data ++ "two ".data ++ PATTERN.data ++ ANCHOR.data) =
      .fixed (("one ".data ++ PATTERN.data ++ "two ".data ++ PATTERN.data ++
          ANCHOR.data).take 4 ++ CLEAN_METHOD.data ++
          ("one ".data ++ PATTERN.data ++ "two ".data ++ PATTERN.data ++
          ANCHOR.data).drop (4 + 72))
        (countOcc COUNT_PATTERN.data
          ((("one ".data ++ PATTERN.data ++ "two ".data ++ PATTERN.data ++
          ANCHOR.data).drop 4).take 72)) :=
  c6_count_reported (by decide) (by decide)

/-! ## Claim C7 -/

/-- Claim C7: contiguous-span excision.  If the block pattern occurs first at
offset `p` and the anchor occurs first at offset `e ≥ p` among positions at
or after `p`, then the run replaces exactly the contiguous span `[p, e)` —
no matter how many duplicate copies it contains — by the canonical block:
the output is `content.take p ++ CLEAN_METHOD.data ++ content.drop e`, and
the reported number is the Python count of the counted substring in that
span. -/
theorem c7_span_excision {content : List Char} {p e : Nat}
    (hocc : occursAt PATTERN.data content p)
    (hmin : ∀ m, m < p → ¬ occursAt PATTERN.data content m)
    (hanc : occursAt ANCHOR.data content e)
    (hpe : p ≤ e)
    (hfirst : ∀ j, j < e → p ≤ j → ¬ occursAt ANCHOR.data content j) :
    runFix content =
      .fixed (content.take p ++ CLEAN_METHOD.data ++ content.drop e)
        (pyCount COUNT_PATTERN.data ((content.drop p).take (e - p))) := by
  have h1 : strFind PATTERN.data content = some p := strFind_some_iff.mpr ⟨hocc, hmin⟩
  have h2 : strFind ANCHOR.data (content.drop p) = some (e - p) := by
    apply strFind_some_iff.mpr
    constructor
    · apply occursAt_drop.mpr
      rw [show p + (e - p) = e from by omega]
      exact hanc
    · intro m hm hc
      exact hfirst (p + m) (by omega) (by omega) (occursAt_drop.mp hc)
  have h := runFix_eq_fixed h1 h2
  rwa [show p + (e - p) = e from by omega] at h

/-- Witness for `c7_span_excision` at a concrete document. -/
theorem c7_witness :
    runFix ("zz".data ++ PATTERN.data ++ ANCHOR.data ++ "w".data) =
      .fixed (("zz".data ++ PATTERN.data ++ ANCHOR.data ++ "w".data).take 2 ++
          CLEAN_METHOD.data ++
          ("zz".data ++ PATTERN.data ++ ANCHOR.data ++ "w".data).drop 36)
        (pyCount COUNT_PATTERN.data
          ((("zz".data ++ PATTERN.data ++ ANCHOR.data ++ "w".data).drop 2).take
            (36 - 2))) :=
  c7_span_excision (by decide) (by decide) (by decide) (by decide) (by decide)

/-! ## Claim C8 -/

/-- Claim C8: the excised span begins at the offset `p` of the literal text
`private async getPrioritizedPages(` itself, so everything before that
offset — including any indentation characters on that line — is kept
unchanged in the output, immediately before the inserted canonical block,
which itself starts with four spaces of its own indentation: the output
around the insertion point is exactly the prefix up to `p` followed by
`CLEAN_METHOD`. -/
theorem c8_insertion_point {content : List Char} {p r : Nat}
    (h1 : strFind PATTERN.data content = some p)
    (h2 : strFind ANCHOR.data (content.drop p) = some r) :
    CLEAN_METHOD.data.take 4 = [' ', ' ', ' ', ' '] ∧
    runFix content =
      .fixed (content.take p ++ CLEAN_METHOD.data ++ content.drop (p + r))
        (pyCount COUNT_PATTERN.data ((content.drop p).take r)) ∧
    (content.take p ++ CLEAN_METHOD.data ++ content.drop (p + r)).take p =
      content.take p ∧
    occursAt CLEAN_METHOD.data
      (content.take p ++ CLEAN_METHOD.data ++ content.drop (p + r)) p :=
  ⟨CLEAN_take_4, runFix_eq_fixed h1 h2, output_take_p h1, output_occ_CLEAN h1⟩

/-- Witness for `c8_insertion_point`: the block pattern is preceded by two
spaces of indentation, which survive in the output right before the inserted
canonical block. -/
theorem c8_witness :
    CLEAN_METHOD.data.take 4 = [' ', ' ', ' ', ' '] ∧
    runFix ("  ".data ++ PATTERN.data ++ ANCHOR.data) =
      .fixed (("  ".data ++ PATTERN.data ++ ANCHOR.data).take 2 ++
          CLEAN_METHOD.data ++ ("  ".data ++ PATTERN.data ++ ANCHOR.data).drop (2 + 34))
        (pyCount COUNT_PATTERN.data
          ((("  ".data ++ PATTERN.data ++ ANCHOR.data).drop 2).take 34)) ∧
    (("  ".data ++ PATTERN.data ++ ANCHOR.data).take 2 ++ CLEAN_METHOD.data ++
        ("  ".data ++ PATTERN.data ++ ANCHOR.data).drop (2 + 34)).take 2 =
      ("  ".data ++ PATTERN.data ++ ANCHOR.data).take 2 ∧
    occursAt CLEAN_METHOD.data
      (("  ".data ++ PATTERN.data ++ ANCHOR.data).take 2 ++ CLEAN_METHOD.data ++
        ("  ".data ++ PATTERN.data ++ ANCHOR.data).drop (2 + 34)) 2 :=
  c8_insertion_point (by decide) (by decide)

/-! ## Claim C9 -/

/-- Claim C9: the anchor is searched only in the document suffix that starts
at the first occurrence of the block pattern.  So if the anchor occurs in
the document but only before the first occurrence of the block pattern, the
run fails through the anchor-NotFound path and the file is not rewritten,
even though both patterns are present. -/
theorem c9_anchor_after_first {content : List Char} {p j0 : Nat}
    (hocc : occursAt PATTERN.data content p)
    (hmin : ∀ m, m < p → ¬ occursAt PATTERN.data content m)
    (hpresent : occursAt ANCHOR.data content j0)
    (hnone : ∀ j, p ≤ j → ¬ occursAt ANCHOR.data content j) :
    runFix content = .errNoAnchor ∧ writesFile (runFix content) = false := by
  have h1 : strFind PATTERN.data content = some p := strFind_some_iff.mpr ⟨hocc, hmin⟩
  have ha : strFind ANCHOR.data (content.drop p) = none := by
    apply strFind_none_iff.mpr
    intro m hm
    exact hnone (p + m) (by omega) (occursAt_drop.mp hm)
  rw [runFix_eq_errNoAnchor h1 ha]
  exact ⟨rfl, rfl⟩

/-- Witness for `c9_anchor_after_first`: the anchor line comes first, then
the block pattern; both are present, yet the run fails. -/
theorem c9_witness :
    runFix (ANCHOR.data ++ PATTERN.data) = .errNoAnchor ∧
    writesFile (runFix (ANCHOR.data ++ PATTERN.data)) = false :=
  @c9_anchor_after_first (ANCHOR.data ++ PATTERN.data) 41 0 (by decide) (by decide)
    (by decide)
    (fun j hj => by
      intro hc
      have h0 : countOcc ANCHOR.data ((ANCHOR.data ++ PATTERN.data).drop 41) = 0 := by
        decide
      apply (countOcc_eq_zero_iff ANCHOR_ne_nil).mp h0 (j - 41)
      apply occursAt_drop.mpr
      rw [show 41 + (j - 41) = j from by omega]
      exact hc)

/-! ## Claim C10 -/

/-- Claim C10: determinism.  The behaviour of a run is a pure function of
the content of the file: two runs over byte-identical input produce the same
outcome — the same decision to write or fail, the same written content and
count, the same console lines, and the same exit status. -/
theorem c10_determinism (γ₁ γ₂ : List Char) (h : γ₁ = γ₂) :
    runFix γ₁ = runFix γ₂ ∧ writesFile (runFix γ₁) = writesFile (runFix γ₂) ∧
      exitCode (runFix γ₁) = exitCode (runFix γ₂) ∧
      consoleOutput (runFix γ₁) = consoleOutput (runFix γ₂) := by
  subst h
  exact ⟨rfl, rfl, rfl, rfl⟩

/-- Witness for `c10_determinism` at two syntactically different but equal
documents. -/
theorem c10_witness :
    runFix ("ab".data ++ "c".data) = runFix "abc".data ∧
    writesFile (runFix ("ab".data ++ "c".data)) = writesFile (runFix "abc".data) ∧
    exitCode (runFix ("ab".data ++ "c".data)) = exitCode (runFix "abc".data) ∧
    consoleOutput (runFix ("ab".data ++ "c".data)) = consoleOutput (runFix "abc".data) :=
  c10_determinism ("ab".data ++ "c".data) "abc".data (by decide)
